import Mathlib

/-!
Shallow embedding of the launch lifecycle orchestrator of
`cmd/vinegar/binary.go` (vinegar). Go functions are modelled as pure Lean
functions over explicit traces: channel receives, filesystem-watch events and
collaborator results become function arguments, and the side effects a
function performs (lines relayed, timers armed, kill requests, subscriptions)
become fields of an explicit effect record.
-/

namespace Vinegar

/-- `sub` occurs as a contiguous run inside `l`: it is a prefix of some
suffix of `l`. -/
def occursIn (sub : List Char) : List Char → Bool
  | [] => sub.isEmpty
  | c :: rest => sub.isPrefixOf (c :: rest) || occursIn sub rest

/-- Go `strings.Contains s sub`: `sub` occurs as a contiguous substring of
`s`. Modelled on the character lists. -/
def goContains (s sub : String) : Bool :=
  occursIn sub.toList s.toList

/-- Split a character list at every occurrence of `sep`; the separator is
dropped and empty segments are kept, as in Go `strings.Split` with a
one-character separator. -/
def splitOnChar (sep : Char) : List Char → List (List Char)
  | [] => [[]]
  | c :: rest =>
    if c = sep then
      [] :: splitOnChar sep rest
    else
      match splitOnChar sep rest with
      | [] => [[c]]
      | g :: gs => (c :: g) :: gs

/-- Go `strings.Split s sep` for a one-character separator `sep`. -/
def goSplit (s : String) (sep : Char) : List String :=
  (splitOnChar sep s.toList).map List.asString

/-- Split a character list at every character satisfying `p`, dropping the
separators and keeping empty segments. -/
def splitWhen (p : Char → Bool) : List Char → List (List Char)
  | [] => [[]]
  | c :: rest =>
    if p c then
      [] :: splitWhen p rest
    else
      match splitWhen p rest with
      | [] => [[c]]
      | g :: gs => (c :: g) :: gs

/-- Go `strings.Fields`: split around runs of whitespace, dropping empty
tokens. -/
def goFields (s : String) : List String :=
  ((splitWhen Char.isWhitespace s.toList).map List.asString).filter (fun t => t ≠ "")

/-- Go `strings.Join parts sep`. -/
def goJoin (sep : String) : List String → String
  | [] => ""
  | [x] => x
  | x :: rest => x ++ sep ++ goJoin sep rest

/-- Go `strings.HasPrefix s p`. -/
def goHasPrefix (s p : String) : Bool :=
  p.toList.isPrefixOf s.toList

/-- The fixed shutdown-marker substring scanned for in `Binary.Tail`
(binary.go line 388). -/
def shutdownMarker : String :=
  "[FLog::SingleSurfaceApp] shutDown:"

/-- Effects performed by the tail loop of `Binary.Tail` (binary.go 375-401):
lines relayed verbatim to `b.Prefix.Stderr`, delayed kill-signal timers
armed (the `go func() { time.Sleep(DieTimeout); syscall.Kill(..., SIGUSR1) }()`
goroutines spawned), and lines forwarded to `b.Activity.HandleRobloxLog`. -/
structure TailEffects where
  relayed : List String
  timersArmed : Nat
  presenceForwarded : List String
  deriving DecidableEq, Repr

/-- One iteration of the `for line := range t.Lines` loop in `Binary.Tail`:
relay the line, arm a delayed kill timer if the line contains the shutdown
marker, and forward to the presence collaborator when Discord RPC is on. -/
def tailStep (discordRPC : Bool) (fx : TailEffects) (line : String) : TailEffects :=
  let fx := { fx with relayed := fx.relayed ++ [line] }
  let fx :=
    if goContains line shutdownMarker then
      { fx with timersArmed := fx.timersArmed + 1 }
    else fx
  if discordRPC then
    { fx with presenceForwarded := fx.presenceForwarded ++ [line] }
  else fx

/-- `Binary.Tail` (binary.go 375-401). `fileOpen = none` models
`tail.TailFile` returning an error (the function logs and returns at once);
`fileOpen = some lines` models a successful tail session delivering `lines`. -/
def tailRun (fileOpen : Option (List String)) (discordRPC : Bool) : TailEffects :=
  match fileOpen with
  | none => ⟨[], 0, []⟩
  | some lines => lines.foldl (tailStep discordRPC) ⟨[], 0, []⟩

/-- Exit classification at the end of `Binary.Execute` (binary.go 322-332):
`runErr` is the error returned by `cmd.Run()` (as a message), `exitCode` is
`cmd.ProcessState.ExitCode()`. The Go `-1` sentinel means killed/signaled. -/
def classifyRun (runErr : Option String) (exitCode : Int) : Option String :=
  match runErr with
  | none => none
  | some e => if exitCode = -1 then none else some ("roblox process: " ++ e)

/-- One fragment of `Binary.HandleProtocolURI` (binary.go 225-237): split on
`":"`; only a two-part `channel:<c>` fragment with nonempty `<c>` updates
the channel. -/
def handleFragment (channel : String) (uri : String) : String :=
  match goSplit uri ':' with
  | [k, v] => if k = "channel" then (if v = "" then channel else v) else channel
  | _ => channel

/-- `Binary.HandleProtocolURI` (binary.go 223-238): split `mime` on `"+"` and
process each fragment in order against the configured channel. -/
def handleProtocolURI (channel : String) (mime : String) : String :=
  (goSplit mime '+').foldl handleFragment channel

/-- Modelled from the spec (testable property, §8): the channel value of a
well-formed `channel:<name>` fragment with non-empty `<name>`; `none` for a
malformed fragment. -/
def wellFormedChannel (uri : String) : Option String :=
  match goSplit uri ':' with
  | [k, v] => if k = "channel" then (if v = "" then none else some v) else none
  | _ => none

/-- Modelled from the spec (testable property, §8): the last well-formed
`channel:` fragment's value among a fragment list, if any. -/
def specLastChannel (frags : List String) : Option String :=
  (frags.filterMap wellFormedChannel).getLast?

/-- The qualifying signals subscribed by `signal.Notify` in `Binary.Execute`
(binary.go 274): interrupt, terminate, and the internal SIGUSR1 force-kill. -/
inductive Sig where
  | interrupt
  | term
  | usr1
  deriving DecidableEq, Repr

/-- Progress of the signal-handler goroutine of `Binary.Execute`
(binary.go 275-290): `waiting` is blocked on `s := <-c`; `handling` is
between the receive and `signal.Stop(c)` — the window holding the log, the
`ProcessState` check and the (possibly hanging) `cmd.Process.Kill()`;
`stopped` is after `signal.Stop(c)`. -/
inductive SigPhase where
  | waiting
  | handling
  | stopped
  deriving DecidableEq, Repr

/-- State of the signal supervisor of `Binary.Execute` (binary.go 273-290).
`buffer` is the capacity-1 channel `c` registered by `signal.Notify`;
`received` are the signals the goroutine read from `c` and logged;
`killIssued` records whether `cmd.Process.Kill()` was called; `dropped` are
signals delivered while registered with a full buffer (the runtime's
non-blocking send discards them); `defaultDisposition` are signals delivered
after `signal.Stop`, which the program no longer intercepts. -/
structure SigSupState where
  phase : SigPhase
  buffer : List Sig
  received : List Sig
  killIssued : Bool
  dropped : List Sig
  defaultDisposition : List Sig
  deriving DecidableEq, Repr

/-- An event of the signal-supervisor run: the OS delivers a qualifying
signal, or the handler goroutine makes progress (completing its receive, or
finishing the kill attempt and running `signal.Stop`). -/
inductive SigEv where
  | deliver (s : Sig)
  | handlerStep
  deriving DecidableEq, Repr

/-- One event of the signal-supervisor run of `Binary.Execute`
(binary.go 273-290). A delivered signal is intercepted into the capacity-1
channel for as long as `signal.Stop` has not run — also during the kill
window — and reaches the default OS disposition only afterwards. The
handler reads exactly one signal: on receipt it logs it, calls
`cmd.Process.Kill()` if `cmd.ProcessState == nil` (exit not yet recorded),
and its next step completes the body and runs `signal.Stop`. -/
def sigStep (exitRecorded : Bool) (st : SigSupState) (ev : SigEv) : SigSupState :=
  match ev with
  | SigEv.deliver s =>
    match st.phase with
    | SigPhase.stopped => { st with defaultDisposition := st.defaultDisposition ++ [s] }
    | _ =>
      if st.buffer.isEmpty then { st with buffer := [s] }
      else { st with dropped := st.dropped ++ [s] }
  | SigEv.handlerStep =>
    match st.phase, st.buffer with
    | SigPhase.waiting, s :: rest =>
      { st with phase := SigPhase.handling, buffer := rest,
                received := st.received ++ [s],
                killIssued := st.killIssued || !exitRecorded }
    | SigPhase.waiting, [] => st
    | SigPhase.handling, _ => { st with phase := SigPhase.stopped }
    | SigPhase.stopped, _ => st

/-- The signal-supervisor run of `Binary.Execute` over an interleaving of
signal deliveries and handler progress, starting subscribed and blocked on
the empty channel. -/
def sigSupervisor (exitRecorded : Bool) (evs : List SigEv) : SigSupState :=
  evs.foldl (sigStep exitRecorded) ⟨SigPhase.waiting, [], [], false, [], []⟩

/-- fsnotify event operation flags (`e.Has(fsnotify.Create)` in
`RobloxLogFile`). -/
inductive FsOp where
  | create
  | write
  | remove
  | rename
  | chmod
  deriving DecidableEq, Repr

/-- One firing of the `select` in the `RobloxLogFile` wait loop
(binary.go 361-372): the timeout timer, a filesystem event carrying its
operation flags and the created file's name, or a watcher error. -/
inductive WatchEv where
  | timerFired
  | fsEvent (ops : List FsOp) (name : String)
  | watchError (msg : String)
  deriving DecidableEq, Repr

/-- Error message of the `RobloxLogFile` timeout branch
(`fmt.Errorf("roblox log file not found after %s", LogTimeout)`). -/
def logNotFoundMsg : String :=
  "roblox log file not found after 6s"

/-- A `select` firing that does not end the `RobloxLogFile` wait loop: a
watcher error (logged only) or a filesystem event without the Create flag. -/
def nonTerminating : WatchEv → Bool
  | WatchEv.timerFired => false
  | WatchEv.fsEvent ops _ => !ops.contains FsOp.create
  | WatchEv.watchError _ => true

/-- The `for { select { ... } }` loop of `RobloxLogFile` (binary.go 361-372)
over a trace of channel firings: timeout returns the LogNotFound error, an
event with the Create flag returns its name, watcher errors are logged and
the loop continues. `none` means the trace ended with the loop still
blocked. -/
def watchLoop : List WatchEv → Option (Except String String)
  | [] => none
  | WatchEv.timerFired :: _ => some (Except.error logNotFoundMsg)
  | WatchEv.fsEvent ops name :: rest =>
      if ops.contains FsOp.create then some (Except.ok name) else watchLoop rest
  | WatchEv.watchError _ :: rest => watchLoop rest

/-- Outcome of `RobloxLogFile`: its return value (`none` if the trace left it
blocked), whether an fsnotify watcher was created, and whether `w.Close()`
ran (the `defer`). -/
structure RLFRun where
  result : Option (Except String String)
  watcherOpened : Bool
  watcherClosed : Bool
  deriving Repr

/-- `RobloxLogFile` (binary.go 335-373). `appData` is `pfx.AppDataDir()`,
`mkdirOk` is `os.MkdirAll`, `newWatcherOk` is `fsnotify.NewWatcher()`,
`addOk` is `w.Add(dir)`; `events` is the trace of `select` firings. The
`defer w.Close()` releases the watcher on every return after its creation. -/
def robloxLogFile (appData : Except String String) (mkdirOk newWatcherOk addOk : Bool)
    (events : List WatchEv) : RLFRun :=
  match appData with
  | Except.error e => ⟨some (Except.error ("get appdata: " ++ e)), false, false⟩
  | Except.ok _ =>
    if !mkdirOk then
      ⟨some (Except.error "create roblox log dir"), false, false⟩
    else if !newWatcherOk then
      ⟨some (Except.error "make fsnotify watcher"), false, false⟩
    else if !addOk then
      ⟨some (Except.error "watch roblox log dir"), true, true⟩
    else
      let r := watchLoop events
      ⟨r, true, r.isSome⟩

/-- The two target variants (`roblox.Player`, `roblox.Studio`). -/
inductive Variant where
  | player
  | studio
  deriving DecidableEq, Repr

/-- Trace of `Binary.Init` (binary.go 184-221): whether `b.Prefix.Init()` was
called (Player branch), the DPI value passed to `b.Prefix.SetDPI` (Studio
branch), whether `b.InstallWebView()` was called, and the returned error. -/
structure InitRun where
  prefixInitCalled : Bool
  setDPI : Option Nat
  webViewInstallCalled : Bool
  result : Option String
  deriving DecidableEq, Repr

/-- `Binary.Init` (binary.go 184-221). `markerPresent` is whether
`os.Stat(<prefix>/drive_c/windows)` succeeds (first-run marker present);
`firstRunFlag` is the global `FirstRun` command-line flag; `variantInitErr`
is the error of `Prefix.Init()`/`Prefix.SetDPI(97)`; `webViewErr` is the
error of `InstallWebView()`. -/
def binaryInit (v : Variant) (markerPresent firstRunFlag : Bool)
    (variantInitErr webViewErr : Option String) : InitRun :=
  let firstRun := !markerPresent
  if firstRun || firstRunFlag then
    let pic := v == Variant.player
    let dpi : Option Nat := if v = Variant.studio then some 97 else none
    match variantInitErr with
    | some e => ⟨pic, dpi, false, some ("failed to init prefix: " ++ e)⟩
    | none =>
      match webViewErr with
      | some e => ⟨pic, dpi, true, some ("failed to install webview: " ++ e)⟩
      | none => ⟨pic, dpi, true, none⟩
  else
    ⟨false, none, false, none⟩

/-- Trace of `Binary.Run` (binary.go 162-182): whether `HandleProtocolURI`
was invoked, the channel after the protocol step, whether `Setup` and
`Execute` were reached, and the returned error. -/
structure RunTrace where
  protocolHandled : Bool
  channelAfter : String
  setupCalled : Bool
  executeCalled : Bool
  result : Option String
  deriving DecidableEq, Repr

/-- `Binary.Run` (binary.go 162-182). `initResult` is what `b.Init()`
returned; `setupErr` and `execErr` are the errors of `b.Setup()` and
`b.Execute(args...)`. The protocol handler runs only when
`len(args) == 1 && args[0] == "roblox-"`. -/
def binaryRun (args : List String) (channel : String)
    (initResult setupErr execErr : Option String) : RunTrace :=
  match initResult with
  | some e => ⟨false, channel, false, false, some ("init: " ++ e)⟩
  | none =>
    let ph := args == ["roblox-"]
    let ch := if ph then handleProtocolURI channel "roblox-" else channel
    match setupErr with
    | some e => ⟨ph, ch, true, false, some ("failed to setup roblox: " ++ e)⟩
    | none =>
      match execErr with
      | some e => ⟨ph, ch, true, true, some ("failed to run roblox: " ++ e)⟩
      | none => ⟨ph, ch, true, true, none⟩

/-- A Go `exec.Cmd` as far as `Binary.Command` manipulates it: its `Path`
and `Args` fields. -/
structure GoCmd where
  path : String
  args : List String
  deriving DecidableEq, Repr

/-- The studio protocol-URI rewrite at the top of `Binary.Command`
(binary.go 404-406): if the space-joined arguments start with
`roblox-studio:1`, the arguments become `["-protocolString", args[0]]`. -/
def rewriteStudioArgs (args : List String) : List String :=
  if goHasPrefix (goJoin " " args) "roblox-studio:1" then
    ["-protocolString", args.headD ""]
  else args

/-- `Binary.Command` (binary.go 403-421). `wineCmd` stands for
`b.Prefix.Wine(<exe>, args...)` of the external wine collaborator, mapping
the (possibly rewritten) arguments to the initial command descriptor;
`launcherCfg` is `b.Config.Launcher`; `launcherPath` is
`b.Config.LauncherPath()`. With a nonempty launcher, its fields are
prepended to `cmd.Args` and the resolved path replaces `cmd.Path`; a
resolution failure aborts with no command. -/
def binaryCommand (wineCmd : List String → GoCmd) (args : List String)
    (launcherCfg : String) (launcherPath : Except String String) :
    Except String GoCmd :=
  let cmd := wineCmd (rewriteStudioArgs args)
  let launcher := goFields launcherCfg
  if launcher.length ≥ 1 then
    match launcherPath with
    | Except.error e => Except.error ("bad launcher: " ++ e)
    | Except.ok p => Except.ok ⟨p, launcher ++ cmd.args⟩
  else
    Except.ok cmd

/-- Effects of the post-launch goroutine of `Binary.Execute`
(binary.go 295-320): whether the splash was closed, whether GameMode
registration was attempted, whether `Tail` was started, and the tail
effects. On log-discovery failure the goroutine returns at once. -/
structure PostLaunch where
  splashClosed : Bool
  gameModeRegistered : Bool
  tailCalled : Bool
  tailFx : TailEffects
  deriving DecidableEq, Repr

/-- The post-launch goroutine of `Binary.Execute` (binary.go 295-320).
`logDiscovery` is the result of `RobloxLogFile`; on error it logs and
returns, skipping splash close, GameMode registration and tailing. -/
def postLaunch (logDiscovery : Except String String) (gameMode : Bool)
    (tailOpen : Option (List String)) (discordRPC : Bool) : PostLaunch :=
  match logDiscovery with
  | Except.error _ => ⟨false, false, false, ⟨[], 0, []⟩⟩
  | Except.ok _ => ⟨true, gameMode, true, tailRun tailOpen discordRPC⟩

/-- Outcome of `Binary.Execute` as far as the post-launch goroutine and the
exit classification interact: the goroutine's effects and the value
`Execute` returns. -/
structure ExecTrace where
  post : PostLaunch
  result : Option String
  deriving DecidableEq, Repr

/-- Composition of the post-launch goroutine (binary.go 295-320) and the
`cmd.Run()` wait plus exit classification (binary.go 322-332) in
`Binary.Execute`. The goroutine feeds nothing into the classification:
`Execute`'s return value is `classifyRun` of the wait's outcome alone. -/
def executeModel (logDiscovery : Except String String) (gameMode : Bool)
    (tailOpen : Option (List String)) (discordRPC : Bool)
    (runErr : Option String) (exitCode : Int) : ExecTrace :=
  ⟨postLaunch logDiscovery gameMode tailOpen discordRPC, classifyRun runErr exitCode⟩

/-- A processed fragment acts on the channel as its well-formed value, if
any. -/
lemma handleFragment_eq (c f : String) : handleFragment c f = (wellFormedChannel f).getD c := by
  unfold handleFragment wellFormedChannel
  rcases h : goSplit f ':' with _ | ⟨k, _ | ⟨v, _ | _⟩⟩ <;> dsimp only <;> try rfl
  split_ifs <;> rfl

/-- Defaulted last element of a cons: the head becomes the new default. -/
lemma getLast?_cons_getD {α : Type} (v : α) (l : List α) (c : α) :
    ((v :: l).getLast?).getD c = (l.getLast?).getD v := by
  cases l with
  | nil => rfl
  | cons b bs =>
    rw [List.getLast?_cons_cons]
    cases hx : (b :: bs).getLast? with
    | none => simp at hx
    | some x => rfl

/-- Folding the fragment handler yields the last well-formed channel value,
defaulting to the starting channel. -/
lemma foldl_handleFragment (frags : List String) : ∀ c : String,
    frags.foldl handleFragment c = (specLastChannel frags).getD c := by
  induction frags with
  | nil => intro c; rfl
  | cons f rest ih =>
    intro c
    rw [List.foldl_cons, ih, handleFragment_eq]
    unfold specLastChannel
    rw [List.filterMap_cons]
    cases h : wellFormedChannel f with
    | none => rfl
    | some v => rw [getLast?_cons_getD]; rfl

/-- One tail-loop iteration arms a timer exactly when the line contains the
shutdown marker. -/
lemma tailStep_timersArmed (rpc : Bool) (fx : TailEffects) (line : String) :
    (tailStep rpc fx line).timersArmed =
      fx.timersArmed + (if goContains line shutdownMarker then 1 else 0) := by
  unfold tailStep
  dsimp only
  split_ifs <;> rfl

/-- Folding the tail loop counts one armed timer per marker-containing
line. -/
lemma foldl_tailStep_timers (rpc : Bool) (lines : List String) : ∀ fx : TailEffects,
    (lines.foldl (tailStep rpc) fx).timersArmed =
      fx.timersArmed + lines.countP (fun l => goContains l shutdownMarker) := by
  induction lines with
  | nil => intro fx; simp
  | cons l ls ih =>
    intro fx
    rw [List.foldl_cons, ih, tailStep_timersArmed, List.countP_cons]
    split_ifs <;> omega

/-- One event preserves the supervisor invariant: while still waiting
nothing was received or killed, at most one signal is ever received, and a
kill implies the exit-state was unrecorded. -/
lemma sigStep_inv (er : Bool) (st : SigSupState) (ev : SigEv)
    (h1 : st.phase = SigPhase.waiting → st.received = [] ∧ st.killIssued = false)
    (h2 : st.received.length ≤ 1)
    (h3 : st.killIssued = true → er = false) :
    ((sigStep er st ev).phase = SigPhase.waiting →
       (sigStep er st ev).received = [] ∧ (sigStep er st ev).killIssued = false) ∧
    (sigStep er st ev).received.length ≤ 1 ∧
    ((sigStep er st ev).killIssued = true → er = false) := by
  obtain ⟨ph, buf, rec, ki, dr, dd⟩ := st
  cases ev with
  | deliver s =>
    cases ph <;> simp_all [sigStep] <;> split_ifs <;> simp_all
  | handlerStep =>
    cases ph <;> cases buf <;> simp_all [sigStep]

/-- The supervisor invariant holds along any event sequence. -/
lemma foldl_sigStep_inv (er : Bool) (evs : List SigEv) : ∀ st : SigSupState,
    (st.phase = SigPhase.waiting → st.received = [] ∧ st.killIssued = false) →
    st.received.length ≤ 1 →
    (st.killIssued = true → er = false) →
    ((evs.foldl (sigStep er) st).phase = SigPhase.waiting →
       (evs.foldl (sigStep er) st).received = [] ∧
         (evs.foldl (sigStep er) st).killIssued = false) ∧
    (evs.foldl (sigStep er) st).received.length ≤ 1 ∧
    ((evs.foldl (sigStep er) st).killIssued = true → er = false) := by
  induction evs with
  | nil => intro st h1 h2 h3; exact ⟨h1, h2, h3⟩
  | cons ev rest ih =>
    intro st h1 h2 h3
    rw [List.foldl_cons]
    have h := sigStep_inv er st ev h1 h2 h3
    exact ih (sigStep er st ev) h.1 h.2.1 h.2.2

/-- After `signal.Stop`, a delivered signal goes to the default disposition
and nothing else changes. -/
lemma sigStep_deliver_stopped (er : Bool) (st : SigSupState) (s : Sig)
    (h : st.phase = SigPhase.stopped) :
    sigStep er st (SigEv.deliver s) =
      { st with defaultDisposition := st.defaultDisposition ++ [s] } := by
  obtain ⟨ph, buf, rec, ki, dr, dd⟩ := st
  subst h
  rfl

/-- A signal delivered during the kill window is intercepted: it is neither
read by the handler nor given default disposition. -/
lemma sigStep_deliver_handling (er : Bool) (st : SigSupState) (s : Sig)
    (h : st.phase = SigPhase.handling) :
    (sigStep er st (SigEv.deliver s)).received = st.received ∧
    (sigStep er st (SigEv.deliver s)).defaultDisposition = st.defaultDisposition := by
  obtain ⟨ph, buf, rec, ki, dr, dd⟩ := st
  subst h
  by_cases hb : buf.isEmpty <;> simp [sigStep, hb]

/-- Select firings that do not terminate the wait loop are skipped. -/
lemma watchLoop_append (pre l : List WatchEv)
    (hpre : ∀ e ∈ pre, nonTerminating e = true) :
    watchLoop (pre ++ l) = watchLoop l := by
  induction pre with
  | nil => rfl
  | cons e es ih =>
    have he := hpre e (by simp)
    have hes : ∀ x ∈ es, nonTerminating x = true := fun x hx => hpre x (by simp [hx])
    cases e with
    | timerFired => simp [nonTerminating] at he
    | fsEvent ops name =>
      simp only [nonTerminating, Bool.not_eq_true'] at he
      rw [List.cons_append]
      show (if ops.contains FsOp.create then some (Except.ok name) else watchLoop (es ++ l)) = _
      rw [he]
      exact ih hes
    | watchError m =>
      rw [List.cons_append]
      show watchLoop (es ++ l) = _
      exact ih hes

/-- C1 counterexample: the claim says that when the shutdown marker appears
three times, exactly one delayed kill-signal timer is armed. On a tail
session whose three lines each contain the marker, `Binary.Tail` arms three
timers, not one: the `go func` at binary.go 389-392 is spawned on every
marker detection, with no pending-timer check. -/
theorem c1_counterexample :
    (tailRun (some [shutdownMarker, shutdownMarker, shutdownMarker]) false).timersArmed = 3 ∧
    (tailRun (some [shutdownMarker, shutdownMarker, shutdownMarker]) false).timersArmed ≠ 1 := by
  decide

/-- C1 (amended): `Binary.Tail` arms one delayed kill-signal timer per
tailed line containing the shutdown-marker substring — marker detections are
never ignored, so a run with n marker lines arms n timers. -/
theorem c1_timer_per_marker (lines : List String) (rpc : Bool) :
    (tailRun (some lines) rpc).timersArmed =
      lines.countP (fun l => goContains l shutdownMarker) := by
  have h := foldl_tailStep_timers rpc lines ⟨[], 0, []⟩
  simpa [tailRun] using h

/-- C2: in `Binary.Execute`, a failed `cmd.Run()` whose recorded exit code
is the killed/signaled sentinel `-1` is classified as success (no error);
a failure with any other exit code returns the error wrapped with the
`roblox process:` context. -/
theorem c2_exit_classification (e : String) (code : Int) :
    (code = -1 → classifyRun (some e) code = none) ∧
    (code ≠ -1 → classifyRun (some e) code = some ("roblox process: " ++ e)) := by
  constructor
  · rintro rfl; rfl
  · intro h
    show (if code = -1 then none else some ("roblox process: " ++ e)) = _
    rw [if_neg h]

/-- Witness for C2 at a concrete killed exit and a concrete error exit. -/
theorem c2_exit_classification_witness :
    classifyRun (some "exit status 1") (-1) = none ∧
    classifyRun (some "exit status 1") 1 = some "roblox process: exit status 1" :=
  ⟨(c2_exit_classification "exit status 1" (-1)).1 rfl,
   (c2_exit_classification "exit status 1" 1).2 (by decide)⟩

/-- C3 counterexample: the claim says a second qualifying signal is never
intercepted by the supervisor — receiving default OS disposition — even
while the supervisor's kill attempt is hanging. In the source, `signal.Stop`
runs only after the kill attempt, so a SIGTERM delivered in that window
(after the handler read SIGINT, before `signal.Stop`) is relayed into the
still-registered capacity-1 channel and swallowed: it sits unread in the
buffer, is never logged as received, and never reaches the default OS
disposition. -/
theorem c3_counterexample :
    (sigSupervisor false [SigEv.deliver Sig.interrupt, SigEv.handlerStep,
        SigEv.deliver Sig.term, SigEv.handlerStep]).defaultDisposition = [] ∧
    (sigSupervisor false [SigEv.deliver Sig.interrupt, SigEv.handlerStep,
        SigEv.deliver Sig.term, SigEv.handlerStep]).buffer = [Sig.term] ∧
    (sigSupervisor false [SigEv.deliver Sig.interrupt, SigEv.handlerStep,
        SigEv.deliver Sig.term, SigEv.handlerStep]).received = [Sig.interrupt] := by
  decide

/-- C3 (amended): the signal supervisor of `Binary.Execute` handles at most
one qualifying signal, kills only when the process's exit-state is not yet
recorded, and once `signal.Stop` has run a delivered qualifying signal is
not intercepted — it goes to the default OS disposition. But a qualifying
signal delivered while the kill attempt is still hanging (before
`signal.Stop`) is intercepted into the still-registered channel and
swallowed: it is neither handled nor given default disposition. -/
theorem c3_signal_one_shot (exitRecorded : Bool) (evs : List SigEv) :
    (sigSupervisor exitRecorded evs).received.length ≤ 1 ∧
    ((sigSupervisor exitRecorded evs).killIssued = true → exitRecorded = false) ∧
    (∀ s : Sig, (sigSupervisor exitRecorded evs).phase = SigPhase.stopped →
      sigSupervisor exitRecorded (evs ++ [SigEv.deliver s]) =
        { sigSupervisor exitRecorded evs with
            defaultDisposition := (sigSupervisor exitRecorded evs).defaultDisposition ++ [s] }) ∧
    (∀ s : Sig, (sigSupervisor exitRecorded evs).phase = SigPhase.handling →
      (sigSupervisor exitRecorded (evs ++ [SigEv.deliver s])).received =
        (sigSupervisor exitRecorded evs).received ∧
      (sigSupervisor exitRecorded (evs ++ [SigEv.deliver s])).defaultDisposition =
        (sigSupervisor exitRecorded evs).defaultDisposition) := by
  have hinv := foldl_sigStep_inv exitRecorded evs ⟨SigPhase.waiting, [], [], false, [], []⟩
    (fun _ => ⟨rfl, rfl⟩) (by simp) (by simp)
  refine ⟨hinv.2.1, hinv.2.2, ?_, ?_⟩
  · intro s h
    show (evs ++ [SigEv.deliver s]).foldl (sigStep exitRecorded) _ = _
    rw [List.foldl_append]
    exact sigStep_deliver_stopped exitRecorded _ s h
  · intro s h
    constructor
    · show ((evs ++ [SigEv.deliver s]).foldl (sigStep exitRecorded) _).received = _
      rw [List.foldl_append]
      exact (sigStep_deliver_handling exitRecorded _ s h).1
    · show ((evs ++ [SigEv.deliver s]).foldl (sigStep exitRecorded) _).defaultDisposition = _
      rw [List.foldl_append]
      exact (sigStep_deliver_handling exitRecorded _ s h).2

/-- Witness for C3: after the handler has run `signal.Stop`, a delivered
SIGTERM reaches the default disposition; during the kill window it is
intercepted and the handled list stays at just the first signal. -/
theorem c3_signal_one_shot_witness :
    sigSupervisor false ([SigEv.deliver Sig.interrupt, SigEv.handlerStep, SigEv.handlerStep] ++
        [SigEv.deliver Sig.term]) =
      ⟨SigPhase.stopped, [], [Sig.interrupt], true, [], [Sig.term]⟩ ∧
    (sigSupervisor false ([SigEv.deliver Sig.interrupt, SigEv.handlerStep] ++
        [SigEv.deliver Sig.term])).received = [Sig.interrupt] := by
  refine ⟨?_, ?_⟩
  · have h := (c3_signal_one_shot false [SigEv.deliver Sig.interrupt, SigEv.handlerStep,
      SigEv.handlerStep]).2.2.1 Sig.term (by decide)
    exact h.trans (by decide)
  · exact ((c3_signal_one_shot false [SigEv.deliver Sig.interrupt, SigEv.handlerStep]).2.2.2
      Sig.term (by decide)).1.trans (by decide)

/-- C4: `Binary.HandleProtocolURI` over a '+'-separated fragment string
leaves the channel unchanged by every malformed fragment and sets it to the
value of the last well-formed `channel:<name>` fragment with non-empty
`<name>`, when one exists. -/
theorem c4_protocol_channel (channel mime : String) :
    handleProtocolURI channel mime = (specLastChannel (goSplit mime '+')).getD channel :=
  foldl_handleFragment _ _

/-- C5: `RobloxLogFile` returns the name of the first Create event after
watching begins (watcher errors and non-create events are skipped, not
fatal), fails with the LogNotFound error when the timeout fires first, and
on every exit path where a watcher was opened the subscription is closed. -/
theorem c5_log_discovery (s : String) (pre rest : List WatchEv) (ops : List FsOp) (name : String)
    (hpre : ∀ e ∈ pre, nonTerminating e = true) :
    (ops.contains FsOp.create = true →
      (robloxLogFile (Except.ok s) true true true
          (pre ++ WatchEv.fsEvent ops name :: rest)).result = some (Except.ok name)) ∧
    ((robloxLogFile (Except.ok s) true true true
          (pre ++ WatchEv.timerFired :: rest)).result = some (Except.error logNotFoundMsg)) ∧
    (∀ (ad : Except String String) (mk nw good : Bool) (evs : List WatchEv),
      (robloxLogFile ad mk nw good evs).watcherOpened = true →
      (robloxLogFile ad mk nw good evs).result.isSome = true →
      (robloxLogFile ad mk nw good evs).watcherClosed = true) := by
  refine ⟨?_, ?_, ?_⟩
  · intro hc
    show (watchLoop (pre ++ WatchEv.fsEvent ops name :: rest)) = _
    rw [watchLoop_append pre _ hpre]
    show (if ops.contains FsOp.create then some (Except.ok name) else watchLoop rest) = _
    rw [hc]
    rfl
  · show (watchLoop (pre ++ WatchEv.timerFired :: rest)) = _
    rw [watchLoop_append pre _ hpre]
    rfl
  · intro ad mk nw good evs hop hsome
    cases ad with
    | error e => simp [robloxLogFile] at hop
    | ok a =>
      cases mk with
      | false => simp [robloxLogFile] at hop
      | true =>
        cases nw with
        | false => simp [robloxLogFile] at hop
        | true =>
          cases good with
          | false => rfl
          | true =>
            simp only [robloxLogFile] at hsome ⊢
            exact hsome

/-- Witness for C5: a create event preceded by a logged watcher error and a
non-create event is found, and a timeout preceded by the same noise yields
the LogNotFound error. -/
theorem c5_log_discovery_witness :
    (robloxLogFile (Except.ok "appdata") true true true
        ([WatchEv.watchError "io error", WatchEv.fsEvent [FsOp.write] "old.log"] ++
          WatchEv.fsEvent [FsOp.create] "new.log" :: [])).result = some (Except.ok "new.log") ∧
    (robloxLogFile (Except.ok "appdata") true true true
        ([WatchEv.watchError "io error", WatchEv.fsEvent [FsOp.write] "old.log"] ++
          WatchEv.timerFired :: [])).result = some (Except.error logNotFoundMsg) :=
  ⟨(c5_log_discovery "appdata" [WatchEv.watchError "io error", WatchEv.fsEvent [FsOp.write] "old.log"]
      [] [FsOp.create] "new.log" (by decide)).1 rfl,
   (c5_log_discovery "appdata" [WatchEv.watchError "io error", WatchEv.fsEvent [FsOp.write] "old.log"]
      [] [FsOp.create] "new.log" (by decide)).2.1⟩

/-- C6: `Binary.Init` skips both initialization steps when the first-run
marker is present and the forced flag is unset; when the marker is absent or
the flag is set it performs the variant-appropriate initialization
(`Prefix.Init` for Player, `SetDPI 97` for Studio) followed by the web-view
install, any failure of which is fatal; and a fatal `Init` result makes
`Binary.Run` return before `Execute` is ever reached. -/
theorem c6_first_run_init (v : Variant) (markerPresent firstRunFlag : Bool)
    (ie we : Option String) (args : List String) (channel : String) (se ee : Option String) :
    (markerPresent = true → firstRunFlag = false →
      binaryInit v markerPresent firstRunFlag ie we = ⟨false, none, false, none⟩) ∧
    (markerPresent = false ∨ firstRunFlag = true →
      ((binaryInit v markerPresent firstRunFlag ie we).prefixInitCalled = (v == Variant.player) ∧
       (binaryInit v markerPresent firstRunFlag ie we).setDPI =
         (if v = Variant.studio then some 97 else none) ∧
       (ie = none → (binaryInit v markerPresent firstRunFlag ie we).webViewInstallCalled = true) ∧
       (ie = none → we = none → (binaryInit v markerPresent firstRunFlag ie we).result = none) ∧
       (ie ≠ none ∨ we ≠ none → (binaryInit v markerPresent firstRunFlag ie we).result ≠ none))) ∧
    ((binaryInit v markerPresent firstRunFlag ie we).result ≠ none →
      (binaryRun args channel (binaryInit v markerPresent firstRunFlag ie we).result se ee).executeCalled = false) := by
  refine ⟨?_, ?_, ?_⟩
  · rintro rfl rfl
    rfl
  · intro hcond
    have hb : (!markerPresent || firstRunFlag) = true := by
      rcases hcond with h | h <;> simp [h]
    simp only [binaryInit, hb, if_true]
    cases ie with
    | some e =>
      refine ⟨rfl, rfl, ?_, ?_, ?_⟩
      · intro h; exact absurd h (by simp)
      · intro h; exact absurd h (by simp)
      · intro _; simp
    | none =>
      cases we with
      | some e =>
        refine ⟨rfl, rfl, fun _ => rfl, ?_, ?_⟩
        · intro _ h; exact absurd h (by simp)
        · intro _; simp
      | none =>
        refine ⟨rfl, rfl, fun _ => rfl, fun _ _ => rfl, ?_⟩
        intro h
        rcases h with h | h <;> exact absurd rfl h
  · intro hr
    cases h : (binaryInit v markerPresent firstRunFlag ie we).result with
    | none => exact absurd h hr
    | some e => rfl

/-- Witness for C6: a warm Player run skips both steps, and a Studio run
whose DPI call fails never reaches `Execute`. -/
theorem c6_first_run_init_witness :
    binaryInit Variant.player true false none none = ⟨false, none, false, none⟩ ∧
    (binaryRun ["arg"] "LIVE" (binaryInit Variant.studio false false (some "wine: boom") none).result
        none none).executeCalled = false :=
  ⟨(c6_first_run_init Variant.player true false none none ["arg"] "LIVE" none none).1 rfl rfl,
   (c6_first_run_init Variant.studio false false (some "wine: boom") none ["arg"] "LIVE" none none).2.2
     (by decide)⟩

/-- C7: with a nonempty configured launcher, `Binary.Command` prepends the
launcher's fields to the command's arguments and replaces the command path
by the resolved launcher path; when resolution fails it returns the
`bad launcher` error and no command descriptor. -/
theorem c7_launcher_wrap (wineCmd : List String → GoCmd) (args : List String) (cfg : String)
    (lp : Except String String) (h : goFields cfg ≠ []) :
    (∀ p, lp = Except.ok p →
      binaryCommand wineCmd args cfg lp =
        Except.ok ⟨p, goFields cfg ++ (wineCmd (rewriteStudioArgs args)).args⟩) ∧
    (∀ e, lp = Except.error e →
      binaryCommand wineCmd args cfg lp = Except.error ("bad launcher: " ++ e)) := by
  have hlen : (goFields cfg).length ≥ 1 := by
    cases hc : goFields cfg with
    | nil => exact absurd hc h
    | cons a l => simp
  constructor
  · rintro p rfl
    unfold binaryCommand
    rw [if_pos hlen]
  · rintro e rfl
    unfold binaryCommand
    rw [if_pos hlen]

/-- Witness for C7 with a two-token launcher, on a resolved and a failing
launcher path. -/
theorem c7_launcher_wrap_witness :
    binaryCommand (fun a => ⟨"/usr/bin/wine", "wine" :: a⟩) ["-app"] "gamemoderun mangohud"
        (Except.ok "/usr/bin/gamemoderun") =
      Except.ok ⟨"/usr/bin/gamemoderun", ["gamemoderun", "mangohud", "wine", "-app"]⟩ ∧
    binaryCommand (fun a => ⟨"/usr/bin/wine", "wine" :: a⟩) ["-app"] "gamemoderun mangohud"
        (Except.error "exec: not found") =
      Except.error "bad launcher: exec: not found" :=
  ⟨(c7_launcher_wrap (fun a => ⟨"/usr/bin/wine", "wine" :: a⟩) ["-app"] "gamemoderun mangohud"
      (Except.ok "/usr/bin/gamemoderun") (by decide)).1 "/usr/bin/gamemoderun" rfl,
   (c7_launcher_wrap (fun a => ⟨"/usr/bin/wine", "wine" :: a⟩) ["-app"] "gamemoderun mangohud"
      (Except.error "exec: not found") (by decide)).2 "exec: not found" rfl⟩

/-- C8: when log discovery fails, the post-launch goroutine of
`Binary.Execute` performs none of its side behaviors — no splash close, no
GameMode registration, no tailing, no timers — and `Execute`'s return value
is still exactly the normal exit classification of the process wait. -/
theorem c8_log_failure_recoverable (e : String) (gm : Bool) (tailOpen : Option (List String))
    (rpc : Bool) (runErr : Option String) (code : Int) :
    executeModel (Except.error e) gm tailOpen rpc runErr code =
      ⟨⟨false, false, false, ⟨[], 0, []⟩⟩, classifyRun runErr code⟩ := rfl

/-- C9: `Binary.Run` invokes the protocol-URI handler only on the argument
list `["roblox-"]`, and since that literal contains no valued `channel:`
fragment, the configured channel is unchanged by every run. -/
theorem c9_run_channel_frame (args : List String) (channel : String) (ie se ee : Option String) :
    (binaryRun args channel ie se ee).channelAfter = channel ∧
    ((binaryRun args channel ie se ee).protocolHandled = true → args = ["roblox-"]) := by
  cases ie with
  | some e => exact ⟨rfl, by intro h; simp [binaryRun] at h⟩
  | none =>
    unfold binaryRun
    dsimp only
    have hch : (if (args == ["roblox-"]) = true then handleProtocolURI channel "roblox-" else channel) = channel := by
      split_ifs with hb
      · rfl
      · rfl
    constructor
    · cases se with
      | some e => simpa using hch
      | none =>
        cases ee with
        | some e => simpa using hch
        | none => simpa using hch
    · intro hph
      have hb : (args == ["roblox-"]) = true := by
        cases se with
        | some e => simpa using hph
        | none =>
          cases ee with
          | some e => simpa using hph
          | none => simpa using hph
      exact eq_of_beq hb

/-- Witness for C9 at the one argument list that triggers the handler. -/
theorem c9_run_channel_frame_witness :
    (binaryRun ["roblox-"] "LIVE" none none none).channelAfter = "LIVE" ∧
    ["roblox-"] = ["roblox-"] :=
  ⟨(c9_run_channel_frame ["roblox-"] "LIVE" none none none).1,
   (c9_run_channel_frame ["roblox-"] "LIVE" none none none).2 (by decide)⟩

/-- C10: when opening the log file for tailing fails, `Binary.Tail` returns
at once: no line is relayed, no delayed kill-signal timer is armed, and no
line is forwarded to the presence collaborator. -/
theorem c10_tail_open_failure (rpc : Bool) : tailRun none rpc = ⟨[], 0, []⟩ := rfl

end Vinegar
